import Mathlib

/-!
Shallow embedding of `src/LastWork.py`, a minimal task-tracking web service:
a `Task` record, the `TaskManager` store (a Python dict from id to task,
persisted as a JSON array), and the relevant branches of `TaskHandler.do_POST`.

Modelling conventions:
* Python/JSON values are modelled by `JValue` (JSON numbers as integers; no
  claim involves fractional numbers).
* The Python dict `TaskManager.tasks` is modelled as an insertion-ordered
  association list; assignment to an existing key replaces the value in place,
  assignment to a fresh key appends, matching CPython dict semantics.
* `uuid.uuid4().int` is nondeterministic; it is modelled by an explicit `Nat`
  parameter `u`, so `str(uuid.uuid4().int)[:8]` becomes `genId u`.
* File writes are modelled by returning the written JSON value; `none` means
  no write happened.
* Python exceptions that the code can raise and does not catch are modelled
  with `Except PyExn`.
-/

namespace LastWork

/-- JSON/Python values (numbers restricted to integers). -/
inductive JValue where
  | jnull
  | jbool (b : Bool)
  | jnum (n : Int)
  | jstr (s : String)
  | jarr (xs : List JValue)
  | jobj (fs : List (String × JValue))

open JValue

/-- Python exceptions relevant to the modelled code paths. -/
inductive PyExn where
  | typeError
  | keyError
  | attributeError
deriving DecidableEq

/-- Python truthiness of a JSON value (`bool(v)`). -/
def truthy : JValue → Bool
  | jnull => false
  | jbool b => b
  | jnum n => n != 0
  | jstr s => s != ""
  | jarr xs => !xs.isEmpty
  | jobj fs => !fs.isEmpty

/-- Whether a value may be used as a Python dict key (lists and dicts are
unhashable). -/
def hashable : JValue → Bool
  | jarr _ => false
  | jobj _ => false
  | _ => true

/-- Python `==` restricted to hashable values, as used for dict keys
(`True == 1` in Python, hence the cross bool/num cases). -/
def jkeyBeq : JValue → JValue → Bool
  | jnull, jnull => true
  | jbool a, jbool b => a == b
  | jnum a, jnum b => a == b
  | jstr a, jstr b => a == b
  | jbool a, jnum n => (if a then (1 : Int) else 0) == n
  | jnum n, jbool a => n == (if a then (1 : Int) else 0)
  | _, _ => false

/-- Lookup in a parsed JSON object. `json.load` keeps the last occurrence of
a duplicated key, hence the reversal. -/
def jget (fs : List (String × JValue)) (key : String) : Option JValue :=
  (fs.reverse.find? (fun p => p.1 == key)).map (·.2)

/-- Identifier generation, `str(uuid.uuid4().int)[:8]` with the random
128-bit integer made explicit as `u` (Python's `str` of a `Nat` is
`(Nat.toDigits 10 u).asString`, so `[:8]` is `List.take 8`). -/
def genId (u : Nat) : String :=
  ((Nat.toDigits 10 u).take 8).asString

/-- The `Task` record. All four fields are dynamically typed in Python; loaded
files may put arbitrary JSON values in them, so the model keeps them as
`JValue`. -/
structure Task where
  id : JValue
  title : JValue
  priority : JValue
  is_done : JValue

/-- Python's `priority in ["low", "normal", "high"]` applied to a value:
a string equal to one of the three entries; any non-string value compares
unequal to every entry. -/
def isAllowedPriority : JValue → Bool
  | jstr s => s == "low" || s == "normal" || s == "high"
  | _ => false

/-- `Task.__init__`: generated id when `task_id` is absent or falsy, priority
coerced to `"normal"` unless it is one of the three allowed strings. -/
def Task.init (u : Nat) (title priority : JValue) (is_done : JValue)
    (task_id : Option JValue) : Task :=
  { id := match task_id with
      | some v => if truthy v then v else jstr (genId u)
      | none => jstr (genId u)
    title := title
    priority := if isAllowedPriority priority then priority else jstr "normal"
    is_done := is_done }

/-- `Task.to_dict`. -/
def Task.to_dict (t : Task) : JValue :=
  jobj [("id", t.id), ("title", t.title), ("priority", t.priority),
        ("isDone", t.is_done)]

/-- `Task.from_dict`: the constructor arguments are evaluated left to right
(`title`, `priority`, `isDone`, `id`); the first missing key raises
`KeyError`, and indexing a non-dict raises `TypeError`. -/
def Task.from_dict (u : Nat) (data : JValue) : Except PyExn Task :=
  match data with
  | jobj fs =>
    match jget fs "title" with
    | none => .error .keyError
    | some title =>
      match jget fs "priority" with
      | none => .error .keyError
      | some priority =>
        match jget fs "isDone" with
        | none => .error .keyError
        | some isDone =>
          match jget fs "id" with
          | none => .error .keyError
          | some tid => .ok (Task.init u title priority isDone (some tid))
  | _ => .error .typeError

/-- The in-memory store `TaskManager.tasks`: an insertion-ordered map from
hashable ids to tasks, as a CPython dict. -/
abbrev TaskDict := List (JValue × Task)

/-- Dict assignment `d[k] = v` for a key already known to be hashable:
replaces in place when an equal key exists, appends otherwise. -/
def dset (d : TaskDict) (k : JValue) (v : Task) : TaskDict :=
  if d.any (fun p => jkeyBeq p.1 k) then
    d.map (fun p => if jkeyBeq p.1 k then (p.1, v) else p)
  else d ++ [(k, v)]

/-- Dict assignment `d[k] = v` for an arbitrary key: raises `TypeError` on an
unhashable key (as in `load_tasks`, where the id comes from the file). -/
def dsetChecked (d : TaskDict) (k : JValue) (v : Task) :
    Except PyExn TaskDict :=
  if hashable k then .ok (dset d k v) else .error .typeError

/-- Dict lookup `d.get(k)`, i.e. `TaskManager.get_task`. -/
def dget (d : TaskDict) (k : JValue) : Option Task :=
  (d.find? (fun p => jkeyBeq p.1 k)).map (·.2)

/-- `TaskManager.save_tasks`: the JSON array written to the data file. -/
def save_tasks (d : TaskDict) : JValue :=
  jarr (d.map (fun p => p.2.to_dict))

/-- `TaskManager.add_task`: builds a `Task` from `title` and `priority` (fresh
id from `u`, `is_done = False`), stores it under its id, persists, and returns
it. The generated key `jstr (genId u)` is always hashable, so the plain `dset`
is exact here. Returns the task, the new store, and the written file. -/
def add_task (u : Nat) (d : TaskDict) (title priority : JValue) :
    Task × TaskDict × JValue :=
  let task := Task.init u title priority (jbool false) none
  let d' := dset d task.id task
  (task, d', save_tasks d')

/-- `TaskManager.get_all_tasks` (dict values in insertion order). -/
def get_all_tasks (d : TaskDict) : List Task :=
  d.map (·.2)

/-- `TaskManager.mark_as_done`: look up by id (ids coming from the URL are
strings); if found, set `is_done = True` on that task object, persist, and
return `True`; otherwise return `False` with no write. The third component is
the file write (`none` = no write). -/
def mark_as_done (d : TaskDict) (task_id : String) :
    Bool × TaskDict × Option JValue :=
  match dget d (jstr task_id) with
  | some t =>
    let d' := dset d (jstr task_id) { t with is_done := jbool true }
    (true, d', some (save_tasks d'))
  | none => (false, d, none)

/-- What `load_tasks` finds: no file, a file whose bytes are not valid JSON
(`json.load` raises `JSONDecodeError`), or a parsed JSON value. Every possible
byte content of the file falls in one of the last two cases. -/
inductive FileState where
  | absent
  | notJson
  | parsed (v : JValue)

/-- Outcome of `TaskManager.load_tasks` on a fresh instance: a rebuilt store,
the caught-error path (diagnostic printed, store left empty), or an uncaught
exception that propagates out of the constructor. -/
inductive LoadResult where
  | ok (d : TaskDict)
  | diag
  | crash (e : PyExn)

/-- Python iteration over the parsed JSON value (`for task_data in
tasks_data`): lists yield elements, strings yield one-character strings,
dicts yield their keys; numbers, booleans and `null` raise `TypeError`. -/
def jiterate : JValue → Except PyExn (List JValue)
  | jarr xs => .ok xs
  | jstr s => .ok (s.data.map (fun c => jstr (String.singleton c)))
  | jobj fs => .ok (fs.map (fun p => jstr p.1))
  | _ => .error .typeError

/-- The loop body of `load_tasks`: `task = Task.from_dict(task_data);
self.tasks[task.id] = task`, over the iterated items. `us` supplies the
random integer for each potential `uuid.uuid4()` call. -/
def loadItems (us : List Nat) (d : TaskDict) :
    List JValue → Except PyExn TaskDict
  | [] => .ok d
  | item :: rest => do
    let t ← Task.from_dict (us.headD 0) item
    let d' ← dsetChecked d t.id t
    loadItems (us.tailD []) d' rest

/-- `TaskManager.load_tasks` on a fresh instance (`self.tasks = {}`): absent
file leaves the store empty; `JSONDecodeError` and `KeyError` are caught
(diagnostic, store reset to empty); any other exception is uncaught. -/
def load_tasks (us : List Nat) (file : FileState) : LoadResult :=
  match file with
  | .absent => .ok []
  | .notJson => .diag
  | .parsed v =>
    match jiterate v with
    | .error e => .crash e
    | .ok items =>
      match loadItems us [] items with
      | .ok d => .ok d
      | .error .keyError => .diag
      | .error e => .crash e

/-- An HTTP response as produced by the handler: status code, optional JSON
body, optional `Location` header. -/
structure Response where
  status : Nat
  body : Option JValue
  location : Option String

/-- Substring occurrence test on character lists (Python's `pat in hay` for
strings): `pat` is a prefix of some suffix of `hay`. -/
def strContainsSub : List Char → List Char → Bool
  | [], pat => pat.isEmpty
  | c :: t, pat => pat.isPrefixOf (c :: t) || strContainsSub t pat

/-- Python's `key in v` (`"title" in data`): key membership for dicts,
element equality for lists, substring test for strings, `TypeError`
otherwise. -/
def jcontains (v : JValue) (key : String) : Except PyExn Bool :=
  match v with
  | jobj fs => .ok (jget fs key).isSome
  | jarr xs => .ok (xs.any (fun x => match x with
      | jstr s => s == key
      | _ => false))
  | jstr s => .ok (strContainsSub s.data key.data)
  | _ => .error .typeError

/-- The `POST /tasks` branch of `TaskHandler.do_POST` for requests with
`Content-Type: application/json`. `data` is the result of `_read_json_body`
(`none` when the body is empty or not valid JSON). `not data or "title" not
in data` short-circuits, so falsy bodies answer 400 before the membership
test; `data.get` on a non-dict raises `AttributeError`; `data["title"]` on a
dict lacking the key would raise `KeyError` (unreachable after the membership
test). Returns the response, the store, and the optional file write. -/
def post_tasks_json (u : Nat) (d : TaskDict) (data : Option JValue) :
    Except PyExn (Response × TaskDict × Option JValue) :=
  match data with
  | none => .ok ({ status := 400, body := none, location := none }, d, none)
  | some v =>
    if !truthy v then
      .ok ({ status := 400, body := none, location := none }, d, none)
    else do
      let mem ← jcontains v "title"
      if !mem then
        .ok ({ status := 400, body := none, location := none }, d, none)
      else
        match v with
        | jobj fs =>
          let priority := (jget fs "priority").getD (jstr "normal")
          match jget fs "title" with
          | some title =>
            let (task, d', written) := add_task u d title priority
            .ok ({ status := 201, body := some task.to_dict,
                   location := none }, d', some written)
          | none => .error .keyError
        | _ => .error .attributeError

/-- The `POST /tasks` branch for any other `Content-Type` (HTML form). The
input is the `urllib.parse.parse_qs` view of the body (`none` when
`Content-Length` is 0; `parse_qs` drops parameters with empty values, so the
value lists are nonempty). A task is added only when the extracted title is
nonempty; the response is a 303 redirect to `/` in every case. -/
def post_tasks_form (u : Nat) (d : TaskDict)
    (params : Option (List (String × List String))) :
    Response × TaskDict × Option JValue :=
  let redirect : Response := { status := 303, body := none, location := some "/" }
  match params with
  | none => (redirect, d, none)
  | some ps =>
    let title := ((ps.lookup "title").getD [""]).headD ""
    let priority := ((ps.lookup "priority").getD ["normal"]).headD "normal"
    if title != "" then
      let (_, d', written) := add_task u d (jstr title) (jstr priority)
      (redirect, d', some written)
    else (redirect, d, none)

/-- The `POST /tasks/{id}/complete` branch: `mark_as_done`, then 200 (JSON
caller) or 303 to `/` (form caller) on success, 404 on failure. -/
def post_complete (d : TaskDict) (task_id : String) (isJson : Bool) :
    Response × TaskDict × Option JValue :=
  let (found, d', written) := mark_as_done d task_id
  if found then
    if isJson then
      ({ status := 200, body := none, location := none }, d', written)
    else
      ({ status := 303, body := none, location := some "/" }, d', written)
  else ({ status := 404, body := none, location := none }, d', written)

/-! ## Basic lemmas about the embedding -/

lemma jkeyBeq_refl_str (s : String) : jkeyBeq (jstr s) (jstr s) = true := by
  simp [jkeyBeq]

lemma jkeyBeq_eucl {a b c : JValue} (hac : jkeyBeq a c = true)
    (hbc : jkeyBeq b c = true) : jkeyBeq a b = true := by
  cases a <;> cases b <;> cases c <;>
    simp_all [jkeyBeq] <;> (try split_ifs at * <;> simp_all) <;> omega

lemma toDigitsCore_ne_nil {b f n : Nat} {ds : List Char} (h : ds ≠ []) :
    Nat.toDigitsCore b f n ds ≠ [] := by
  induction f generalizing n ds with
  | zero => simpa [Nat.toDigitsCore] using h
  | succ f ih =>
    rw [Nat.toDigitsCore]
    split
    · simp
    · exact ih (by simp)

lemma toDigits_ne_nil {b n : Nat} : Nat.toDigits b n ≠ [] := by
  rw [Nat.toDigits, Nat.toDigitsCore]
  split
  · simp
  · exact toDigitsCore_ne_nil (by simp)

lemma genId_ne_empty (u : Nat) : genId u ≠ "" := by
  unfold genId List.asString
  intro h
  have hdata : (Nat.toDigits 10 u).take 8 = [] := by
    have := congrArg String.data h
    simpa using this
  rcases List.take_eq_nil_iff.mp hdata with h8 | hnil
  · exact absurd h8 (by norm_num)
  · exact toDigits_ne_nil hnil

lemma truthy_genId (u : Nat) : truthy (jstr (genId u)) = true := by
  simp [truthy, genId_ne_empty u]

/-! ## Dictionary lemmas -/

/-- The keys of the store are pairwise distinct (as Python dict keys; true of
every store a `TaskManager` can actually hold). -/
def KeysDistinct (d : TaskDict) : Prop :=
  List.Pairwise (fun p q => jkeyBeq p.1 q.1 = false) d

lemma any_of_dget_some {d : TaskDict} {k : JValue} {t : Task}
    (h : dget d k = some t) : d.any (fun p => jkeyBeq p.1 k) = true := by
  rcases Option.map_eq_some'.mp h with ⟨p, hfind, _⟩
  rcases List.find?_eq_some.mp hfind with ⟨hp, as, bs, rfl, _⟩
  simp [hp]

lemma dget_map_update {k : JValue} {v : Task} :
    ∀ {d : TaskDict}, d.any (fun p => jkeyBeq p.1 k) = true →
    dget (d.map (fun p => if jkeyBeq p.1 k then (p.1, v) else p)) k = some v := by
  intro d
  induction d with
  | nil => simp
  | cons p rest ih =>
    intro hany
    by_cases hpk : jkeyBeq p.1 k = true
    · simp [dget, hpk]
    · have hrest : rest.any (fun p => jkeyBeq p.1 k) = true := by
        simpa [hpk] using hany
      have hne : jkeyBeq p.1 k = false := by simpa using hpk
      simpa [dget, hne, hpk] using ih hrest

lemma dget_dset_self {d : TaskDict} {k : JValue} {v : Task}
    (h : jkeyBeq k k = true) : dget (dset d k v) k = some v := by
  unfold dset
  by_cases hany : d.any (fun p => jkeyBeq p.1 k) = true
  · simpa [hany] using dget_map_update hany
  · have hfalse : d.any (fun p => jkeyBeq p.1 k) = false :=
      Bool.eq_false_iff.mpr hany
    have hnone : d.find? (fun p => jkeyBeq p.1 k) = none := by
      rw [List.find?_eq_none]
      exact List.any_eq_false.mp hfalse
    simp [hany, dget, hnone, h]

lemma mem_dset_of_not_key {d : TaskDict} {k : JValue} {v : Task}
    {p : JValue × Task} (hp : p ∈ d) (hne : jkeyBeq p.1 k = false) :
    p ∈ dset d k v := by
  unfold dset
  split
  · exact List.mem_map.mpr ⟨p, hp, by simp [hne]⟩
  · exact List.mem_append_left _ hp

lemma dset_keys_of_present {d : TaskDict} {k : JValue} {v : Task}
    (hany : d.any (fun p => jkeyBeq p.1 k) = true) :
    (dset d k v).map (·.1) = d.map (·.1) := by
  unfold dset
  rw [if_pos hany, List.map_map]
  apply List.map_congr_left
  intro p _
  by_cases hpk : jkeyBeq p.1 k = true <;> simp [hpk]

lemma dset_length_of_present {d : TaskDict} {k : JValue} {v : Task}
    (hany : d.any (fun p => jkeyBeq p.1 k) = true) :
    (dset d k v).length = d.length := by
  have := congrArg List.length (@dset_keys_of_present d k v hany)
  simpa using this

lemma map_update_eq_self {k : JValue} {v : Task} :
    ∀ {d : TaskDict}, KeysDistinct d → dget d k = some v →
    d.map (fun p => if jkeyBeq p.1 k then (p.1, v) else p) = d := by
  intro d
  induction d with
  | nil => simp
  | cons p rest ih =>
    intro hkd hget
    have hkd' : KeysDistinct rest := (List.pairwise_cons.mp hkd).2
    by_cases hpk : jkeyBeq p.1 k = true
    · have hsome : dget (p :: rest) k = some p.2 := by simp [dget, hpk]
      have hv : v = p.2 := Option.some.inj (hget.symm.trans hsome)
      subst hv
      have hrest : ∀ q ∈ rest, jkeyBeq q.1 k = false := by
        intro q hq
        by_contra hqk
        have hqk' : jkeyBeq q.1 k = true := by simpa using hqk
        have : jkeyBeq p.1 q.1 = true := jkeyBeq_eucl hpk hqk'
        have := (List.pairwise_cons.mp hkd).1 q hq
        simp_all
      have hmap : rest.map (fun q => if jkeyBeq q.1 k then (q.1, p.2) else q)
          = rest := by
        have hcongr : ∀ q ∈ rest,
            (if jkeyBeq q.1 k then (q.1, p.2) else q) = q := by
          intro q hq
          simp [hrest q hq]
        rw [List.map_congr_left hcongr]
        simp
      simp [hpk, hmap]
    · have hne : jkeyBeq p.1 k = false := by simpa using hpk
      have hget' : dget rest k = some v := by simpa [dget, hne] using hget
      simp [hne, ih hkd' hget']

lemma dset_eq_self {d : TaskDict} {k : JValue} {v : Task}
    (hkd : KeysDistinct d) (hget : dget d k = some v) : dset d k v = d := by
  unfold dset
  rw [if_pos (any_of_dget_some hget)]
  exact map_update_eq_self hkd hget

lemma any_key_false {d : TaskDict} {k : JValue}
    (h : d.any (fun p => jkeyBeq p.1 k) = false) :
    ∀ p ∈ d, jkeyBeq p.1 k = false := by
  induction d with
  | nil => simp
  | cons q rest ih =>
    intro p hp
    rw [List.any_cons] at h
    rcases List.mem_cons.mp hp with rfl | hp
    · exact (Bool.or_eq_false_iff.mp h).1
    · exact ih (Bool.or_eq_false_iff.mp h).2 p hp

lemma keysDistinct_dset {d : TaskDict} {k : JValue} {v : Task}
    (hkd : KeysDistinct d) : KeysDistinct (dset d k v) := by
  unfold dset
  split
  · unfold KeysDistinct at *
    refine List.Pairwise.map _ ?_ hkd
    intro p q hpq
    by_cases hp : jkeyBeq p.1 k = true <;> by_cases hq : jkeyBeq q.1 k = true <;>
      simpa [hp, hq] using hpq
  · rename_i hany
    have hall : ∀ p ∈ d, jkeyBeq p.1 k = false :=
      any_key_false (Bool.eq_false_iff.mpr hany)
    unfold KeysDistinct
    rw [List.pairwise_append]
    exact ⟨hkd, by simp, fun p hp q hq => by
      rw [List.mem_singleton] at hq
      subst hq
      exact hall p hp⟩

/-! ## Round-trip lemmas (save then load) -/

/-- A well-formed store entry: keyed by the task's own id, with a hashable
and truthy id and an allowed priority. Every entry a `TaskManager` can
produce (via `add_task` or a successful `load_tasks`) satisfies this. -/
def EntryWF (p : JValue × Task) : Prop :=
  p.1 = p.2.id ∧ hashable p.2.id = true ∧ truthy p.2.id = true ∧
    isAllowedPriority p.2.priority = true

/-- A well-formed store: well-formed entries with pairwise distinct keys. -/
def StoreWF (d : TaskDict) : Prop :=
  (∀ p ∈ d, EntryWF p) ∧ KeysDistinct d

lemma from_dict_to_dict {u : Nat} {t : Task} (h1 : truthy t.id = true)
    (h2 : isAllowedPriority t.priority = true) :
    Task.from_dict u t.to_dict = .ok t := by
  have hred : Task.from_dict u t.to_dict =
      .ok (Task.init u t.title t.priority t.is_done (some t.id)) := rfl
  rw [hred]
  cases t with
  | mk id title priority is_done => simp_all [Task.init]

lemma loadItems_save {d : TaskDict} :
    ∀ {us : List Nat} {acc : TaskDict},
    (∀ p ∈ d, EntryWF p) → KeysDistinct d →
    (∀ p ∈ d, ∀ q ∈ acc, jkeyBeq q.1 p.1 = false) →
    loadItems us acc (d.map (fun p => p.2.to_dict)) = .ok (acc ++ d) := by
  induction d with
  | nil => intro us acc _ _ _; simp [loadItems]
  | cons p rest ih =>
    intro us acc hwf hkd hdisj
    obtain ⟨hkey, hhash, htruthy, hprio⟩ := hwf p (List.mem_cons_self p rest)
    have hfrom : Task.from_dict (us.headD 0) p.2.to_dict = .ok p.2 :=
      from_dict_to_dict htruthy hprio
    have hset : dsetChecked acc p.2.id p.2 = .ok (acc ++ [(p.2.id, p.2)]) := by
      have hany : acc.any (fun q => jkeyBeq q.1 p.2.id) = false := by
        rw [List.any_eq_false]
        intro q hq
        have := hdisj p (List.mem_cons_self p rest) q hq
        simp [hkey ▸ this]
      unfold dsetChecked dset
      simp [hhash, hany]
    have hstep : loadItems us acc ((p :: rest).map (fun p => p.2.to_dict)) =
        loadItems (us.tailD []) (acc ++ [(p.2.id, p.2)])
          (rest.map (fun p => p.2.to_dict)) := by
      simp only [List.map_cons, loadItems, bind, Except.bind, hfrom, hset]
    rw [hstep]
    have hkd' : KeysDistinct rest := (List.pairwise_cons.mp hkd).2
    have hdisj' : ∀ r ∈ rest, ∀ q ∈ acc ++ [(p.2.id, p.2)],
        jkeyBeq q.1 r.1 = false := by
      intro r hr q hq
      rcases List.mem_append.mp hq with hq | hq
      · exact hdisj r (List.mem_cons_of_mem p hr) q hq
      · rw [List.mem_singleton] at hq
        subst hq
        have := (List.pairwise_cons.mp hkd).1 r hr
        simpa [hkey] using this
    have := @ih (us.tailD []) (acc ++ [(p.2.id, p.2)])
      (fun r hr => hwf r (List.mem_cons_of_mem p hr)) hkd' hdisj'
    rw [this]
    have : (p.2.id, p.2) = p := by
      rw [← hkey]
    simp [this]

/-! ## Sample data for witnesses -/

/-- A well-formed sample task (as `add_task` would create it). -/
def sampleTask : Task :=
  { id := jstr "42", title := jstr "a", priority := jstr "low",
    is_done := jbool false }

/-- A second well-formed sample task, completed and with another priority. -/
def sampleTask2 : Task :=
  { id := jstr "7", title := jstr "b", priority := jstr "high",
    is_done := jbool true }

/-- A sample two-entry store. -/
def sampleStore : TaskDict :=
  [(jstr "42", sampleTask), (jstr "7", sampleTask2)]

/-! ## Claims -/

/-- C1 (amended): `add_task` returns a task whose id is the fresh
`genId u`; provided that generated id does not collide with any key already
in the store (which `uuid4` makes overwhelmingly likely but does not
guarantee), the new id differs from every previously added id and the new
entry is appended without overwriting any existing entry. -/
theorem add_id_unique_unless_collision (u : Nat) (d : TaskDict)
    (title priority : JValue)
    (h : ∀ p ∈ d, jkeyBeq p.1 (jstr (genId u)) = false) :
    (add_task u d title priority).1.id = jstr (genId u) ∧
    (∀ p ∈ d, p.1 ≠ (add_task u d title priority).1.id) ∧
    (add_task u d title priority).2.1 =
      d ++ [((add_task u d title priority).1.id,
             (add_task u d title priority).1)] := by
  refine ⟨rfl, ?_, ?_⟩
  · intro p hp heq
    have hfalse := h p hp
    have htrue : jkeyBeq p.1 (jstr (genId u)) = true := by
      rw [heq]
      exact jkeyBeq_refl_str (genId u)
    rw [hfalse] at htrue
    cases htrue
  · have hany : d.any (fun p => jkeyBeq p.1 (jstr (genId u))) = false := by
      rw [List.any_eq_false]
      intro p hp hc
      simp [h p hp] at hc
    have happ : dset d (jstr (genId u)) (Task.init u title priority (jbool false) none)
        = d ++ [(jstr (genId u), Task.init u title priority (jbool false) none)] := by
      unfold dset
      rw [hany]
      simp
    exact happ

theorem add_id_unique_witness :
    (∀ p ∈ sampleStore, jkeyBeq p.1 (jstr (genId 0)) = false) ∧
    (∀ p ∈ sampleStore, p.1 ≠ (add_task 0 sampleStore (jstr "b") (jstr "low")).1.id) :=
  ⟨by decide,
   (add_id_unique_unless_collision 0 sampleStore (jstr "b") (jstr "low")
     (by decide)).2.1⟩

/-- C1 counterexample: when the truncated-UUID generator yields the same
value twice (`u = 0` both times), the second `add_task` returns a task whose
id equals the previously added task's id, and the store afterwards contains
only the second task: the first entry was silently overwritten. -/
theorem add_id_collision_overwrites :
    (add_task 0 (add_task 0 [] (jstr "a") (jstr "low")).2.1
        (jstr "b") (jstr "low")).1.id
      = (add_task 0 [] (jstr "a") (jstr "low")).1.id ∧
    get_all_tasks (add_task 0 (add_task 0 [] (jstr "a") (jstr "low")).2.1
        (jstr "b") (jstr "low")).2.1
      = [(add_task 0 (add_task 0 [] (jstr "a") (jstr "low")).2.1
          (jstr "b") (jstr "low")).1] :=
  ⟨rfl, rfl⟩

/-- C2: for every well-formed store, writing the store with `save_tasks` and
reading the file back with `load_tasks` on a fresh instance reproduces the
store exactly — the same ids, titles, priorities and completion flags —
whatever the id stream `us` is. -/
theorem save_load_roundtrip (d : TaskDict) (us : List Nat)
    (hwf : StoreWF d) :
    load_tasks us (.parsed (save_tasks d)) = .ok d := by
  obtain ⟨hent, hkd⟩ := hwf
  have hli : loadItems us [] (d.map (fun p => p.2.to_dict)) = .ok ([] ++ d) :=
    loadItems_save hent hkd (by simp)
  simp only [List.nil_append] at hli
  unfold load_tasks save_tasks jiterate
  simp [hli]

theorem save_load_roundtrip_witness :
    StoreWF sampleStore ∧
    load_tasks [] (.parsed (save_tasks sampleStore)) = .ok sampleStore :=
  have hwf : StoreWF sampleStore := by
    constructor
    · intro p hp
      simp only [sampleStore, List.mem_cons, List.not_mem_nil, or_false] at hp
      rcases hp with rfl | rfl <;> exact ⟨rfl, rfl, rfl, rfl⟩
    · simp [KeysDistinct, sampleStore, jkeyBeq, sampleTask, sampleTask2]
  ⟨hwf, save_load_roundtrip sampleStore [] hwf⟩

/-- C3: the claim says `load_tasks` never raises for any file content; but on
the file content `[1]` — valid JSON that is not an array of task objects —
the code raises an uncaught `TypeError` (the `except` clause only catches
`JSONDecodeError` and `KeyError`), crashing instead of initializing empty. -/
theorem load_crashes_on_non_object_item (us : List Nat) :
    load_tasks us (.parsed (jarr [jnum 1])) = .crash .typeError := rfl

/-- C4: for every title string and priority string, `add_task` stores and
returns a task whose priority is the given string when it is one of
`low`/`normal`/`high` and `"normal"` otherwise. -/
theorem add_priority_coercion (u : Nat) (d : TaskDict) (tl ps : String) :
    (add_task u d (jstr tl) (jstr ps)).1.priority =
      (if ps = "low" ∨ ps = "normal" ∨ ps = "high"
       then jstr ps else jstr "normal") ∧
    dget (add_task u d (jstr tl) (jstr ps)).2.1
        (add_task u d (jstr tl) (jstr ps)).1.id
      = some (add_task u d (jstr tl) (jstr ps)).1 := by
  constructor
  · by_cases h1 : ps = "low" <;> by_cases h2 : ps = "normal" <;>
      by_cases h3 : ps = "high" <;>
      simp [add_task, Task.init, isAllowedPriority, h1, h2, h3]
  · exact dget_dset_self (jkeyBeq_refl_str (genId u))

/-- C5 (amended): for a `POST /tasks` with `Content-Type: application/json`:
an absent or unparsable body, a falsy parsed body, and a JSON object without
a `"title"` key all yield status 400 with no task added and no file write; a
JSON object with a `"title"` key yields status 201 whose body is the created
task, which carries the given title, the given priority when it is one of
`low`/`normal`/`high` and `"normal"` otherwise (also `"normal"` when
absent), `isDone = false` and a populated (truthy) generated id, and which
is stored under that id. -/
theorem post_tasks_json_cases (u : Nat) (d : TaskDict) :
    (post_tasks_json u d none =
      .ok ({ status := 400, body := none, location := none }, d, none)) ∧
    (∀ v, truthy v = false → post_tasks_json u d (some v) =
      .ok ({ status := 400, body := none, location := none }, d, none)) ∧
    (∀ fs, jget fs "title" = none → post_tasks_json u d (some (jobj fs)) =
      .ok ({ status := 400, body := none, location := none }, d, none)) ∧
    (∀ fs title, jget fs "title" = some title →
      (let tk := Task.init u title ((jget fs "priority").getD (jstr "normal"))
        (jbool false) none
      post_tasks_json u d (some (jobj fs)) =
        .ok ({ status := 201, body := some tk.to_dict, location := none },
          dset d tk.id tk, some (save_tasks (dset d tk.id tk))) ∧
      tk.title = title ∧
      tk.priority =
        (if isAllowedPriority ((jget fs "priority").getD (jstr "normal"))
         then (jget fs "priority").getD (jstr "normal")
         else jstr "normal") ∧
      tk.is_done = jbool false ∧
      tk.id = jstr (genId u) ∧
      truthy tk.id = true ∧
      dget (dset d tk.id tk) tk.id = some tk)) := by
  refine ⟨rfl, ?_, ?_, ?_⟩
  · intro v hv
    simp [post_tasks_json, hv]
  · intro fs h
    by_cases htr : truthy (jobj fs) = true
    · simp [post_tasks_json, htr, jcontains, h, bind, Except.bind]
    · simp [post_tasks_json, Bool.eq_false_iff.mpr htr]
  · intro fs title h
    have hfs : fs ≠ [] := by
      intro hnil
      subst hnil
      simp [jget] at h
    have htr : truthy (jobj fs) = true := by
      simp [truthy, hfs]
    refine ⟨?_, rfl, rfl, rfl, rfl, truthy_genId u, ?_⟩
    · simp [post_tasks_json, htr, jcontains, h, bind, Except.bind, add_task]
    · exact dget_dset_self (jkeyBeq_refl_str (genId u))

theorem post_tasks_json_witness :
    post_tasks_json 0 [] (some (jobj [("title", jstr "x")])) =
      .ok ({ status := 201,
             body := some (jobj [("id", jstr "0"), ("title", jstr "x"),
               ("priority", jstr "normal"), ("isDone", jbool false)]),
             location := none },
           [(jstr "0", ⟨jstr "0", jstr "x", jstr "normal", jbool false⟩)],
           some (jarr [jobj [("id", jstr "0"), ("title", jstr "x"),
             ("priority", jstr "normal"), ("isDone", jbool false)]])) := by
  have h := ((post_tasks_json_cases 0 []).2.2.2 [("title", jstr "x")]
    (jstr "x") rfl).1
  exact h.trans rfl

/-- C5 counterexample: `POST /tasks` with the JSON body
`{"title": "Buy milk", "priority": "urgent"}` answers 201 whose body carries
priority `"normal"`, not the given `"urgent"`, so the response body does not
hold "the given priority" as the claim states; and the valid JSON body
`"title"` (a string, which lacks a `"title"` key) raises an uncaught
`AttributeError` at `data.get` instead of answering 400. -/
theorem post_tasks_json_priority_not_echoed :
    post_tasks_json 0 [] (some (jobj [("title", jstr "Buy milk"),
        ("priority", jstr "urgent")])) =
      .ok ({ status := 201,
             body := some (jobj [("id", jstr "0"), ("title", jstr "Buy milk"),
               ("priority", jstr "normal"), ("isDone", jbool false)]),
             location := none },
           [(jstr "0", ⟨jstr "0", jstr "Buy milk", jstr "normal",
                        jbool false⟩)],
           some (jarr [jobj [("id", jstr "0"), ("title", jstr "Buy milk"),
             ("priority", jstr "normal"), ("isDone", jbool false)]])) ∧
    jstr "normal" ≠ jstr "urgent" ∧
    post_tasks_json 0 [] (some (jstr "title")) = .error .attributeError :=
  ⟨rfl, by simp, rfl⟩

/-- C6: `mark_as_done` on an id not present in the store returns `False`,
writes nothing to the persistence file, and leaves the store unchanged. -/
theorem mark_as_done_missing_id_noop (d : TaskDict) (tid : String)
    (h : dget d (jstr tid) = none) :
    mark_as_done d tid = (false, d, none) := by
  simp [mark_as_done, h]

theorem mark_as_done_missing_id_witness :
    dget sampleStore (jstr "zzz") = none ∧
    mark_as_done sampleStore "zzz" = (false, sampleStore, none) :=
  ⟨rfl, mark_as_done_missing_id_noop sampleStore "zzz" rfl⟩

/-- C7: `mark_as_done` on a present id is idempotent: the first call returns
`True` and sets the task's `isDone` to true; the second call also returns
`True`, leaves the store exactly as after the first call, and still performs
a persist of that same store. -/
theorem mark_as_done_idempotent (d : TaskDict) (tid : String) (t : Task)
    (hkd : KeysDistinct d) (h : dget d (jstr tid) = some t) :
    (mark_as_done d tid).1 = true ∧
    dget (mark_as_done d tid).2.1 (jstr tid) =
      some { t with is_done := jbool true } ∧
    (mark_as_done (mark_as_done d tid).2.1 tid).1 = true ∧
    (mark_as_done (mark_as_done d tid).2.1 tid).2.1 =
      (mark_as_done d tid).2.1 ∧
    (mark_as_done (mark_as_done d tid).2.1 tid).2.2 =
      some (save_tasks (mark_as_done d tid).2.1) := by
  have hstep : mark_as_done d tid =
      (true, dset d (jstr tid) { t with is_done := jbool true },
       some (save_tasks (dset d (jstr tid) { t with is_done := jbool true }))) := by
    simp [mark_as_done, h]
  have hget1 : dget (dset d (jstr tid) { t with is_done := jbool true })
      (jstr tid) = some { t with is_done := jbool true } :=
    dget_dset_self (jkeyBeq_refl_str tid)
  have hkd1 : KeysDistinct (dset d (jstr tid) { t with is_done := jbool true }) :=
    keysDistinct_dset hkd
  have hself : dset (dset d (jstr tid) { t with is_done := jbool true })
      (jstr tid) { t with is_done := jbool true }
      = dset d (jstr tid) { t with is_done := jbool true } :=
    dset_eq_self hkd1 hget1
  rw [hstep]
  refine ⟨rfl, hget1, ?_, ?_, ?_⟩ <;>
    simp [mark_as_done, hget1, hself]

theorem mark_as_done_idempotent_witness :
    KeysDistinct sampleStore ∧
    dget sampleStore (jstr "42") = some sampleTask ∧
    (mark_as_done (mark_as_done sampleStore "42").2.1 "42").2.1 =
      (mark_as_done sampleStore "42").2.1 :=
  ⟨by constructor <;> simp [jkeyBeq], rfl,
   (mark_as_done_idempotent sampleStore "42" sampleTask
     (by constructor <;> simp [jkeyBeq]) rfl).2.2.2.1⟩

/-- C8: `POST /tasks/{id}/complete` with JSON content type: when a task with
that id exists the response is 200 with an empty body and that task's
`isDone` becomes true; when none exists the response is 404 and the store is
unchanged with no file write. -/
theorem post_complete_json_cases (d : TaskDict) (tid : String) :
    (∀ t, dget d (jstr tid) = some t →
      post_complete d tid true =
        ({ status := 200, body := none, location := none },
         dset d (jstr tid) { t with is_done := jbool true },
         some (save_tasks (dset d (jstr tid) { t with is_done := jbool true }))) ∧
      dget (dset d (jstr tid) { t with is_done := jbool true }) (jstr tid) =
        some { t with is_done := jbool true }) ∧
    (dget d (jstr tid) = none →
      post_complete d tid true =
        ({ status := 404, body := none, location := none }, d, none)) := by
  constructor
  · intro t h
    refine ⟨?_, dget_dset_self (jkeyBeq_refl_str tid)⟩
    simp [post_complete, mark_as_done, h]
  · intro h
    simp [post_complete, mark_as_done, h]

theorem post_complete_json_witness :
    dget sampleStore (jstr "42") = some sampleTask ∧
    (post_complete sampleStore "42" true).1.status = 200 ∧
    dget sampleStore (jstr "zzz") = none ∧
    post_complete sampleStore "zzz" true =
      ({ status := 404, body := none, location := none }, sampleStore, none) :=
  ⟨rfl,
   by rw [((post_complete_json_cases sampleStore "42").1 sampleTask rfl).1],
   rfl,
   (post_complete_json_cases sampleStore "zzz").2 rfl⟩

/-- C9: `mark_as_done` on a present id modifies only that task's `isDone`
field: the updated entry keeps its id, title and priority; every entry under
a different key is still in the store unchanged; and no entry is added or
removed. -/
theorem mark_as_done_frame (d : TaskDict) (tid : String) (t : Task)
    (h : dget d (jstr tid) = some t) :
    (mark_as_done d tid).1 = true ∧
    dget (mark_as_done d tid).2.1 (jstr tid) =
      some { id := t.id, title := t.title, priority := t.priority,
             is_done := jbool true } ∧
    (∀ p ∈ d, jkeyBeq p.1 (jstr tid) = false → p ∈ (mark_as_done d tid).2.1) ∧
    (mark_as_done d tid).2.1.length = d.length := by
  have hstep : mark_as_done d tid =
      (true, dset d (jstr tid) { t with is_done := jbool true },
       some (save_tasks (dset d (jstr tid) { t with is_done := jbool true }))) := by
    simp [mark_as_done, h]
  rw [hstep]
  refine ⟨rfl, dget_dset_self (jkeyBeq_refl_str tid), ?_, ?_⟩
  · intro p hp hne
    exact mem_dset_of_not_key hp hne
  · exact dset_length_of_present (any_of_dget_some h)

theorem mark_as_done_frame_witness :
    dget sampleStore (jstr "42") = some sampleTask ∧
    ((jstr "7", sampleTask2) ∈ (mark_as_done sampleStore "42").2.1) ∧
    (mark_as_done sampleStore "42").2.1.length = sampleStore.length :=
  ⟨rfl,
   (mark_as_done_frame sampleStore "42" sampleTask rfl).2.2.1
     (jstr "7", sampleTask2) (by simp [sampleStore]) (by decide),
   (mark_as_done_frame sampleStore "42" sampleTask rfl).2.2.2⟩

/-- C10: a `POST /tasks` with a non-JSON content type whose body is empty or
contains no nonempty `title` form parameter adds no task, leaves the store
unchanged and writes nothing, yet still answers a 303 redirect to `/`. -/
theorem post_tasks_form_no_title_redirect (u : Nat) (d : TaskDict) :
    (post_tasks_form u d none =
      ({ status := 303, body := none, location := some "/" }, d, none)) ∧
    (∀ ps, ((ps.lookup "title").getD [""]).headD "" = "" →
      post_tasks_form u d (some ps) =
        ({ status := 303, body := none, location := some "/" }, d, none)) := by
  refine ⟨rfl, ?_⟩
  intro ps h
  simp only [List.headD] at h
  simp [post_tasks_form, List.headD, h]

theorem post_tasks_form_witness :
    ((([(("priority" : String), ["high"])].lookup "title").getD [""]).headD ""
      = "") ∧
    post_tasks_form 0 sampleStore (some [("priority", ["high"])]) =
      ({ status := 303, body := none, location := some "/" }, sampleStore,
       none) :=
  ⟨rfl, (post_tasks_form_no_title_redirect 0 sampleStore).2
    [("priority", ["high"])] rfl⟩

end LastWork
